import Mathlib

/-!
Verification development for the qunit-sinon-assertions package.

Texts are modelled as `List Char`.  JavaScript values that can flow through
the value formatter are modelled by the mutual inductive `JsVal` below.
-/

namespace QSinon

/-- Join a list of texts with a separator, as JavaScript Array.prototype.join. -/
def joinSep (sep : List Char) : List (List Char) → List Char
  | [] => []
  | [x] => x
  | x :: y :: r => x ++ sep ++ joinSep sep (y :: r)

/-- Fueled worker for global literal replacement (leftmost, non-overlapping),
as the regex replace with a literal pattern and the g flag.  With fuel at
least the length of the text (as supplied by `replaceList`) the fuel never
runs out before the text does. -/
def replaceFuel (pat repl : List Char) : Nat → List Char → List Char
  | 0, _ => []
  | _ + 1, [] => []
  | fuel + 1, c :: rest =>
    if !pat.isEmpty && pat.isPrefixOf (c :: rest) then
      repl ++ replaceFuel pat repl fuel ((c :: rest).drop pat.length)
    else
      c :: replaceFuel pat repl fuel rest

/-- Replace every occurrence of the literal `pat` by `repl` in `s`,
scanning left to right. -/
def replaceList (pat repl s : List Char) : List Char :=
  replaceFuel pat repl s.length s

/-- Decimal digit character. -/
def digitChar (n : Nat) : Char := Char.ofNat (48 + n)

/-- Fueled decimal rendering worker. -/
def natTextAux : Nat → Nat → List Char → List Char
  | 0, _, acc => acc
  | fuel + 1, n, acc =>
    if n < 10 then digitChar n :: acc
    else natTextAux fuel (n / 10) (digitChar (n % 10) :: acc)

/-- Decimal rendering of a natural number. -/
def natText (n : Nat) : List Char := natTextAux (n + 1) n []

/-- Decimal rendering of an integer, as JavaScript String(n) on integral
numbers. -/
def intText : Int → List Char
  | .ofNat n => natText n
  | .negSucc n => '-' :: natText (n + 1)

mutual
/-- Model of the JavaScript values reaching the value formatter.
`vStr`, `vNum`, `vBool`, `vNull`, `vArr`, `vObj` are the plain JSON
categories; `vFunc` is a function carrying its source text; `vObjCustom` is a
plain-tagged object whose own toString differs from the generic object tag;
`vOther` is a value of a non-JSON structural category carrying its
Object.prototype.toString tag; `vCyclic` is a self-referential plain object,
on which the structural encoder throws. -/
inductive JsVal where
  | vUndefined
  | vNull
  | vBool (b : Bool)
  | vNum (n : Int)
  | vStr (s : List Char)
  | vFunc (src : List Char)
  | vObjCustom (toStr : List Char)
  | vOther (tag : List Char)
  | vCyclic
  | vArr (elems : JsList)
  | vObj (fields : JsFields)

/-- A JavaScript array of values. -/
inductive JsList where
  | nil
  | cons (v : JsVal) (rest : JsList)

/-- The fields of a plain JavaScript object. -/
inductive JsFields where
  | nil
  | cons (key : List Char) (v : JsVal) (rest : JsFields)
end

mutual
/-- Structural equality of modelled values (deep equality, as used by the
spy's argument matching). -/
def beqVal : JsVal → JsVal → Bool
  | .vUndefined, .vUndefined => true
  | .vNull, .vNull => true
  | .vBool a, .vBool b => a == b
  | .vNum a, .vNum b => a == b
  | .vStr a, .vStr b => a == b
  | .vFunc a, .vFunc b => a == b
  | .vObjCustom a, .vObjCustom b => a == b
  | .vOther a, .vOther b => a == b
  | .vCyclic, .vCyclic => true
  | .vArr a, .vArr b => beqList a b
  | .vObj a, .vObj b => beqFields a b
  | _, _ => false

/-- Elementwise equality of arrays. -/
def beqList : JsList → JsList → Bool
  | .nil, .nil => true
  | .cons a r, .cons b s => beqVal a b && beqList r s
  | _, _ => false

/-- Fieldwise equality of objects. -/
def beqFields : JsFields → JsFields → Bool
  | .nil, .nil => true
  | .cons k a r, .cons l b s => k == l && beqVal a b && beqFields r s
  | _, _ => false
end

instance : BEq JsVal := ⟨beqVal⟩

/-- Hexadecimal digit character, lowercase letters. -/
def hexDigit (n : Nat) : Char :=
  if n < 10 then Char.ofNat (48 + n) else Char.ofNat (87 + n)

/-- JSON string escaping of one character (the quote step of the structural
encoder). -/
def escapeChar (c : Char) : List Char :=
  if c = '\x22' then ['\\', '\x22']
  else if c = '\\' then ['\\', '\\']
  else if c = '\n' then ['\\', 'n']
  else if c = '\t' then ['\\', 't']
  else if c = '\x0d' then ['\\', 'r']
  else if c = '\x08' then ['\\', 'b']
  else if c = '\x0c' then ['\\', 'f']
  else if c.toNat < 32 then
    ['\\', 'u', '0', '0', hexDigit (c.toNat / 16), hexDigit (c.toNat % 16)]
  else [c]

/-- JSON string quoting: escape every character and wrap in double quotes. -/
def quoteJson (s : List Char) : List Char :=
  '\x22' :: (s.map escapeChar).flatten ++ ['\x22']

/-- Array layout of the structural encoder: compact when the gap is empty,
otherwise one element per line, indented one gap beyond `indent`. -/
def wrapArr (gap indent : List Char) (parts : List (List Char)) : List Char :=
  if parts.isEmpty then "[]".toList
  else if gap.isEmpty then '[' :: joinSep [','] parts ++ [']']
  else
    '[' :: '\n' :: (indent ++ gap) ++ joinSep (',' :: '\n' :: (indent ++ gap)) parts
      ++ '\n' :: indent ++ [']']

/-- Object layout of the structural encoder, same shape as `wrapArr`. -/
def wrapObj (gap indent : List Char) (parts : List (List Char)) : List Char :=
  if parts.isEmpty then ['\x7b', '\x7d']
  else if gap.isEmpty then '\x7b' :: joinSep [','] parts ++ ['\x7d']
  else
    '\x7b' :: '\n' :: (indent ++ gap) ++ joinSep (',' :: '\n' :: (indent ++ gap)) parts
      ++ '\n' :: indent ++ ['\x7d']

mutual
/-- Serialize one value, as JSON.stringify does with the replacer of the
utils module baked in: undefined becomes the quoted undefined marker,
functions and custom-toString plain objects become their own string form,
values of non-JSON structural categories become their generic object tag,
and the self-referential object makes the encoder throw.  `gap` is the
indentation unit, `indent` the current indentation. -/
def serVal (gap indent : List Char) : JsVal → Except Unit (List Char)
  | .vUndefined => .ok (quoteJson "<undefined>".toList)
  | .vNull => .ok "null".toList
  | .vBool b => .ok (if b then "true".toList else "false".toList)
  | .vNum n => .ok (intText n)
  | .vStr s => .ok (quoteJson s)
  | .vFunc src => .ok (quoteJson src)
  | .vObjCustom toStr => .ok (quoteJson toStr)
  | .vOther tag => .ok (quoteJson ("[object ".toList ++ tag ++ "]".toList))
  | .vCyclic => .error ()
  | .vArr elems =>
    match serList gap (indent ++ gap) elems with
    | .error e => .error e
    | .ok parts => .ok (wrapArr gap indent parts)
  | .vObj fields =>
    match serFields gap (indent ++ gap) fields with
    | .error e => .error e
    | .ok parts => .ok (wrapObj gap indent parts)

/-- Serialize the elements of an array, failing as soon as one fails. -/
def serList (gap indent : List Char) : JsList → Except Unit (List (List Char))
  | .nil => .ok []
  | .cons v r =>
    match serVal gap indent v with
    | .error e => .error e
    | .ok s =>
      match serList gap indent r with
      | .error e => .error e
      | .ok rest => .ok (s :: rest)

/-- Serialize the members of an object, failing as soon as one fails; the
colon is followed by a space exactly when a gap is in effect. -/
def serFields (gap indent : List Char) : JsFields → Except Unit (List (List Char))
  | .nil => .ok []
  | .cons k v r =>
    match serVal gap indent v with
    | .error e => .error e
    | .ok s =>
      match serFields gap indent r with
      | .error e => .error e
      | .ok rest =>
        .ok ((quoteJson k ++ [':'] ++ (if gap.isEmpty then [] else [' ']) ++ s) :: rest)
end

/-- JSON.stringify with the replacer, at top level (empty current
indentation). -/
def stringify (v : JsVal) (gap : List Char) : Except Unit (List Char) :=
  serVal gap [] v

/-- The indentation unit selected by format's isIndented flag: two spaces
when indented, none otherwise. -/
def gapFor (isIndented : Bool) : List Char := if isIndented then [' ', ' '] else []

/-- The value of format: a text token in the normal case, or the original
value unchanged when structural encoding failed. -/
inductive FormatResult where
  | token (text : List Char)
  | raw (value : JsVal)

/-- The value formatter of the utils module: structurally encode with the
replacer, rewrite the quoted undefined marker to bare undefined, collapse
escaped double quotes and then all remaining double quotes to single
quotes, and wrap in backticks, in block form when the encoding spans
several lines.  When the encoder throws, the catch returns the original
value unchanged. -/
def format (value : JsVal) (isIndented : Bool) : FormatResult :=
  match stringify value (gapFor isIndented) with
  | .error _ => .raw value
  | .ok s =>
    let r1 := replaceList "\x22<undefined>\x22".toList "undefined".toList s
    let r2 := replaceList ['\\', '\x22'] ['\x27'] r1
    let r3 := replaceList ['\x22'] ['\x27'] r2
    if '\n' ∈ r3 then .token ('\x60' :: '\n' :: r3 ++ ['\n', '\x60'])
    else .token ('\x60' :: r3 ++ ['\x60'])

/-- formatItems of the utils module: format elementwise. -/
def formatItems (items : List JsVal) (isIndented : Bool) : List FormatResult :=
  items.map (fun i => format i isIndented)

mutual
/-- JavaScript String() coercion of a modelled value, as used when a format
result is interpolated into a template literal (reachable for the raw case
only when the encoder failed on the value). -/
def jsToString : JsVal → List Char
  | .vUndefined => "undefined".toList
  | .vNull => "null".toList
  | .vBool b => if b then "true".toList else "false".toList
  | .vNum n => intText n
  | .vStr s => s
  | .vFunc src => src
  | .vObjCustom toStr => toStr
  | .vOther tag => "[object ".toList ++ tag ++ "]".toList
  | .vCyclic => "[object Object]".toList
  | .vArr l => jsArrToString l
  | .vObj _ => "[object Object]".toList

/-- Array String() coercion: elements joined by commas, null and undefined
elements rendering empty. -/
def jsArrToString : JsList → List Char
  | .nil => []
  | .cons v r =>
    (match v with
      | .vUndefined => ([] : List Char)
      | .vNull => []
      | w => jsToString w)
    ++ (match r with
      | .nil => ([] : List Char)
      | s => ',' :: jsArrToString s)
end

/-- Template interpolation of a format result: the token text, or the
String() form of the raw value. -/
def FormatResult.interp : FormatResult → List Char
  | .token t => t
  | .raw v => jsToString v

/-- Array join coercion of a format result: as interp, except that raw null
and undefined render empty. -/
def FormatResult.joinElem : FormatResult → List Char
  | .token t => t
  | .raw .vUndefined => []
  | .raw .vNull => []
  | .raw v => jsToString v

/-- The text contributed by format(v) inside a message template. -/
def formatText (v : JsVal) : List Char := (format v false).interp

/-- formatItems(items).join with a newline, as the multi-call actual texts
are built. -/
def joinFormatted (items : List JsVal) : List Char :=
  joinSep ['\n'] ((formatItems items false).map FormatResult.joinElem)

/-- pluralize of the utils module. -/
def pluralize (word : List Char) (count : Nat) : List Char :=
  if count = 1 then word else word ++ ['s']

/-- Is the first array a matching leading prefix of the second?  This is the
non-strict argument comparison of the external spy library. -/
def jsListLeadMatch : JsList → JsList → Bool
  | .nil, _ => true
  | .cons _ _, .nil => false
  | .cons a r, .cons b s => beqVal a b && jsListLeadMatch r s

/-- One recorded call of the external spy: positional arguments, return
value, and the thrown exception if any.  The spy is an external collaborator
(the sinon library); this structure models the call-record interface that
the assertion set consumes, as the spec's data model describes it. -/
structure SpyCall where
  args : JsList
  returnValue : JsVal
  exception : Option JsVal

/-- The external spy: its display name (the text its String() coercion
yields) and its recorded calls in order. -/
structure Spy where
  name : List Char
  calls : List SpyCall

/-- The spy's call count. -/
def Spy.callCount (s : Spy) : Nat := s.calls.length

/-- Non-strict match of one recorded call against expected arguments. -/
def SpyCall.calledWith (c : SpyCall) (args : JsList) : Bool :=
  jsListLeadMatch args c.args

/-- Exact match of one recorded call against expected arguments. -/
def SpyCall.calledWithExactly (c : SpyCall) (args : JsList) : Bool :=
  beqList args c.args

/-- Did this recorded call return the given value? -/
def SpyCall.returned (c : SpyCall) (v : JsVal) : Bool :=
  beqVal c.returnValue v

/-- spy.calledWith: some recorded call matches non-strictly. -/
def Spy.calledWith (s : Spy) (args : JsList) : Bool :=
  s.calls.any (fun c => c.calledWith args)

/-- spy.calledWithExactly: some recorded call matches exactly. -/
def Spy.calledWithExactly (s : Spy) (args : JsList) : Bool :=
  s.calls.any (fun c => c.calledWithExactly args)

/-- spy.returned: some recorded call returned the value. -/
def Spy.returned (s : Spy) (v : JsVal) : Bool :=
  s.calls.any (fun c => c.returned v)

/-- spy.threw(): some recorded call threw. -/
def Spy.threw (s : Spy) : Bool :=
  s.calls.any (fun c => c.exception.isSome)

/-- spy.threw(exception): some recorded call threw the given exception. -/
def Spy.threwWith (s : Spy) (e : JsVal) : Bool :=
  s.calls.any (fun c => match c.exception with
    | some x => beqVal x e
    | none => false)

/-- spy.getCall(-1): the last recorded call, or nothing when never called. -/
def Spy.getCallLast (s : Spy) : Option SpyCall := s.calls.getLast?

/-- spy.args: the array of the recorded calls' argument arrays. -/
def Spy.argValues (s : Spy) : List JsVal :=
  s.calls.map (fun c => JsVal.vArr c.args)

/-- spy.returnValues: the array of the recorded calls' return values. -/
def Spy.returnValues (s : Spy) : List JsVal :=
  s.calls.map (fun c => c.returnValue)

/-- The record one check hands to the result sink. -/
structure Outcome where
  result : Bool
  expected : List Char
  actual : List Char
  message : List Char
deriving DecidableEq

/-- The assertion set: bound to one spy, with `results` the sequence of
outcomes pushed so far to the bound test context (the result sink, modelled
as an append-only list). -/
structure SinonAssertions where
  spy : Spy
  results : List Outcome

/-- The private pushResult of SinonAssertions: compose the reported message
from the optional user message, the expected text and the error text — on a
pass, the user message or else the expected text; on a failure, the user
message and a newline (when present) followed by the error text — and hand
exactly one outcome to the sink.  An empty user message behaves as an
absent one, as JavaScript truthiness makes it. -/
def SinonAssertions.pushResult (a : SinonAssertions) (message : List Char)
    (result : Bool) (expected actual error : List Char) : SinonAssertions :=
  let composed :=
    if result then (if message.isEmpty then expected else message)
    else (if message.isEmpty then [] else message ++ ['\n']) ++ error
  { a with results := a.results ++ [⟨result, expected, actual, composed⟩] }

/-- called: the spy was called at least once. -/
def SinonAssertions.called (a : SinonAssertions) (message : List Char) :
    SinonAssertions :=
  a.pushResult message (decide (0 < a.spy.callCount))
    (a.spy.name ++ " was called at least once".toList)
    (a.spy.name ++ " was not called".toList)
    ("Expected ".toList ++ a.spy.name
      ++ " to be called at least once, but it was not called.".toList)

/-- calledTimes: the spy was called exactly `count` times. -/
def SinonAssertions.calledTimes (a : SinonAssertions) (count : Nat)
    (message : List Char) : SinonAssertions :=
  let expectedTimes := natText count ++ [' '] ++ pluralize "time".toList count
  let actualTimes :=
    natText a.spy.callCount ++ [' '] ++ pluralize "time".toList a.spy.callCount
  a.pushResult message (decide (a.spy.callCount = count))
    (a.spy.name ++ " was called ".toList ++ expectedTimes)
    (a.spy.name ++ " was called ".toList ++ actualTimes)
    ("Expected ".toList ++ a.spy.name ++ " to be called ".toList ++ expectedTimes
      ++ ", but it was called ".toList ++ actualTimes ++ ".".toList)

/-- calledOnce delegates to calledTimes 1. -/
def SinonAssertions.calledOnce (a : SinonAssertions) (message : List Char) :
    SinonAssertions :=
  a.calledTimes 1 message

/-- calledTwice delegates to calledTimes 2. -/
def SinonAssertions.calledTwice (a : SinonAssertions) (message : List Char) :
    SinonAssertions :=
  a.calledTimes 2 message

/-- notCalled delegates to calledTimes 0. -/
def SinonAssertions.notCalled (a : SinonAssertions) (message : List Char) :
    SinonAssertions :=
  a.calledTimes 0 message

/-- calledWith: some call matches non-strictly; the actual text lists every
recorded call's arguments, one per line, or the not-called placeholder. -/
def SinonAssertions.calledWith (a : SinonAssertions) (args : JsList)
    (message : List Char) : SinonAssertions :=
  let actualState :=
    if a.spy.callCount ≠ 0 then
      "called with: ".toList ++ joinFormatted a.spy.argValues
    else "not called at all".toList
  a.pushResult message (a.spy.calledWith args)
    (a.spy.name ++ " was called with: ".toList ++ formatText (.vArr args))
    (a.spy.name ++ " was ".toList ++ actualState)
    ("Expected ".toList ++ a.spy.name ++ " to be called with: ".toList
      ++ formatText (.vArr args) ++ ", but it was ".toList ++ actualState
      ++ ".".toList)

/-- calledWithExactly: some call matches exactly; texts as calledWith, with
the error text saying exactly. -/
def SinonAssertions.calledWithExactly (a : SinonAssertions) (args : JsList)
    (message : List Char) : SinonAssertions :=
  let actualState :=
    if a.spy.callCount ≠ 0 then
      "called with: ".toList ++ joinFormatted a.spy.argValues
    else "not called at all".toList
  a.pushResult message (a.spy.calledWithExactly args)
    (a.spy.name ++ " was called with: ".toList ++ formatText (.vArr args))
    (a.spy.name ++ " was ".toList ++ actualState)
    ("Expected ".toList ++ a.spy.name ++ " to be called with exactly: ".toList
      ++ formatText (.vArr args) ++ ", but it was ".toList ++ actualState
      ++ ".".toList)

/-- notCalledWith: no call matches non-strictly; the actual text echoes the
expected arguments. -/
def SinonAssertions.notCalledWith (a : SinonAssertions) (args : JsList)
    (message : List Char) : SinonAssertions :=
  a.pushResult message (!a.spy.calledWith args)
    (a.spy.name ++ " was never called with: ".toList ++ formatText (.vArr args))
    (a.spy.name ++ " was called with: ".toList ++ formatText (.vArr args))
    ("Expected ".toList ++ a.spy.name ++ " to never be called with: ".toList
      ++ formatText (.vArr args) ++ ", but it was.".toList)

/-- notCalledWithExactly: no call matches exactly. -/
def SinonAssertions.notCalledWithExactly (a : SinonAssertions) (args : JsList)
    (message : List Char) : SinonAssertions :=
  a.pushResult message (!a.spy.calledWithExactly args)
    (a.spy.name ++ " was never called with: ".toList ++ formatText (.vArr args))
    (a.spy.name ++ " was called with: ".toList ++ formatText (.vArr args))
    ("Expected ".toList ++ a.spy.name
      ++ " to never be called with exactly: ".toList
      ++ formatText (.vArr args) ++ ", but it was.".toList)

/-- returnedWith: some call returned the value; the actual text lists every
recorded return value, one per line, with no never-called placeholder. -/
def SinonAssertions.returnedWith (a : SinonAssertions) (value : JsVal)
    (message : List Char) : SinonAssertions :=
  a.pushResult message (a.spy.returned value)
    (a.spy.name ++ " returned ".toList ++ formatText value)
    (a.spy.name ++ " returned ".toList ++ joinFormatted a.spy.returnValues)
    ("Expected ".toList ++ a.spy.name ++ " to return ".toList ++ formatText value
      ++ " at least once, but it did not.".toList)

/-- didNotReturnWith: no call returned the value. -/
def SinonAssertions.didNotReturnWith (a : SinonAssertions) (value : JsVal)
    (message : List Char) : SinonAssertions :=
  a.pushResult message (!a.spy.returned value)
    (a.spy.name ++ " did not return ".toList ++ formatText value)
    (a.spy.name ++ " returned ".toList ++ formatText value)
    ("Expected ".toList ++ a.spy.name ++ " to never return ".toList
      ++ formatText value ++ ", but it did.".toList)

/-- threw: some call threw. -/
def SinonAssertions.threw (a : SinonAssertions) (message : List Char) :
    SinonAssertions :=
  a.pushResult message a.spy.threw
    (a.spy.name ++ " threw".toList)
    (a.spy.name ++ " did not throw".toList)
    ("Expected ".toList ++ a.spy.name
      ++ " to throw at least once, but it did not.".toList)

/-- threwWith: some call threw the given exception. -/
def SinonAssertions.threwWith (a : SinonAssertions) (exception : JsVal)
    (message : List Char) : SinonAssertions :=
  a.pushResult message (a.spy.threwWith exception)
    (a.spy.name ++ " threw with ".toList ++ formatText exception)
    (a.spy.name ++ " did not throw with ".toList ++ formatText exception)
    ("Expected ".toList ++ a.spy.name ++ " to throw with ".toList
      ++ formatText exception ++ ", but it did not.".toList)

/-- lastCalledWith: a last call exists and matches non-strictly; a missing
last call makes the actual text the not-called placeholder. -/
def SinonAssertions.lastCalledWith (a : SinonAssertions) (args : JsList)
    (message : List Char) : SinonAssertions :=
  let lastCall := a.spy.getCallLast
  let actualState :=
    match lastCall with
    | some c => "last called with: ".toList ++ formatText (.vArr c.args)
    | none => "not called at all".toList
  a.pushResult message
    (match lastCall with
      | some c => c.calledWith args
      | none => false)
    (a.spy.name ++ " was last called with: ".toList ++ formatText (.vArr args))
    (a.spy.name ++ " was ".toList ++ actualState)
    ("Expected ".toList ++ a.spy.name ++ " to be last called with: ".toList
      ++ formatText (.vArr args) ++ ", but it was ".toList ++ actualState
      ++ ".".toList)

/-- lastCalledWithExactly: a last call exists and matches exactly. -/
def SinonAssertions.lastCalledWithExactly (a : SinonAssertions) (args : JsList)
    (message : List Char) : SinonAssertions :=
  let lastCall := a.spy.getCallLast
  let actualState :=
    match lastCall with
    | some c => "last called with: ".toList ++ formatText (.vArr c.args)
    | none => "not called at all".toList
  a.pushResult message
    (match lastCall with
      | some c => c.calledWithExactly args
      | none => false)
    (a.spy.name ++ " was last called with: ".toList ++ formatText (.vArr args))
    (a.spy.name ++ " was ".toList ++ actualState)
    ("Expected ".toList ++ a.spy.name
      ++ " to be last called with exactly: ".toList
      ++ formatText (.vArr args) ++ ", but it was ".toList ++ actualState
      ++ ".".toList)

/-- lastReturnedWith: a last call exists and returned the value; here the
actual state text carries the spy name itself. -/
def SinonAssertions.lastReturnedWith (a : SinonAssertions) (value : JsVal)
    (message : List Char) : SinonAssertions :=
  let lastCall := a.spy.getCallLast
  let actualState :=
    match lastCall with
    | some c => a.spy.name ++ " last call returned ".toList ++ formatText c.returnValue
    | none => a.spy.name ++ " was not called at all".toList
  a.pushResult message
    (match lastCall with
      | some c => c.returned value
      | none => false)
    (a.spy.name ++ " last call returned ".toList ++ formatText value)
    actualState
    ("Expected ".toList ++ a.spy.name ++ " last call to return ".toList
      ++ formatText value ++ ", but ".toList ++ actualState ++ ".".toList)

/-- lastNotCalledWith: a last call exists and does not match non-strictly. -/
def SinonAssertions.lastNotCalledWith (a : SinonAssertions) (args : JsList)
    (message : List Char) : SinonAssertions :=
  let lastCall := a.spy.getCallLast
  let actualState :=
    match lastCall with
    | some c => "last called with: ".toList ++ formatText (.vArr c.args)
    | none => "not called at all".toList
  a.pushResult message
    (match lastCall with
      | some c => !c.calledWith args
      | none => false)
    (a.spy.name ++ " was not last called with: ".toList ++ formatText (.vArr args))
    (a.spy.name ++ " was ".toList ++ actualState)
    ("Expected ".toList ++ a.spy.name ++ " to not be last called with: ".toList
      ++ formatText (.vArr args) ++ ", but it was ".toList ++ actualState
      ++ ".".toList)

/-- lastNotCalledWithExactly: a last call exists and does not match
exactly. -/
def SinonAssertions.lastNotCalledWithExactly (a : SinonAssertions)
    (args : JsList) (message : List Char) : SinonAssertions :=
  let lastCall := a.spy.getCallLast
  let actualState :=
    match lastCall with
    | some c => "last called with: ".toList ++ formatText (.vArr c.args)
    | none => "not called at all".toList
  a.pushResult message
    (match lastCall with
      | some c => !c.calledWithExactly args
      | none => false)
    (a.spy.name ++ " was not last called with: ".toList ++ formatText (.vArr args))
    (a.spy.name ++ " was ".toList ++ actualState)
    ("Expected ".toList ++ a.spy.name
      ++ " to not be last called with exactly: ".toList
      ++ formatText (.vArr args) ++ ", but it was.".toList)

/-- lastDidNotReturnWith: a last call exists and did not return the
value. -/
def SinonAssertions.lastDidNotReturnWith (a : SinonAssertions) (value : JsVal)
    (message : List Char) : SinonAssertions :=
  let lastCall := a.spy.getCallLast
  let actualState :=
    match lastCall with
    | some c => a.spy.name ++ " last call returned ".toList ++ formatText c.returnValue
    | none => a.spy.name ++ " was not called at all".toList
  a.pushResult message
    (match lastCall with
      | some c => !c.returned value
      | none => false)
    (a.spy.name ++ " last call did not return ".toList ++ formatText value)
    actualState
    ("Expected ".toList ++ a.spy.name ++ " last call not to return ".toList
      ++ formatText value ++ ", but it did.".toList)

/-- The raw argument handed to the spy factory, before validation: its
JavaScript truthiness, whether it is a function, whether it exposes a
getCall function, its isSinonProxy flag, its display text, and — in the
proxied form — the value of its truthy proxy property. -/
inductive SpyArg where
  | plain (truthy isFunction hasGetCall isSinonProxy : Bool) (display : List Char)
  | proxied (truthy isFunction hasGetCall isSinonProxy : Bool) (display : List Char)
      (proxy : SpyArg)

/-- Truthiness of a factory argument. -/
def SpyArg.truthy : SpyArg → Bool
  | .plain t _ _ _ _ => t
  | .proxied t _ _ _ _ _ => t

/-- Is the factory argument a function? -/
def SpyArg.isFunction : SpyArg → Bool
  | .plain _ f _ _ _ => f
  | .proxied _ f _ _ _ _ => f

/-- Does the factory argument expose a getCall function? -/
def SpyArg.hasGetCall : SpyArg → Bool
  | .plain _ _ g _ _ => g
  | .proxied _ _ g _ _ _ => g

/-- The isSinonProxy flag of a factory argument. -/
def SpyArg.isSinonProxy : SpyArg → Bool
  | .plain _ _ _ p _ => p
  | .proxied _ _ _ p _ _ => p

/-- The display text of a factory argument (its String() coercion). -/
def SpyArg.display : SpyArg → List Char
  | .plain _ _ _ _ d => d
  | .proxied _ _ _ _ d _ => d

/-- The text of the error failValidation throws. -/
def failMsg (s : SpyArg) : List Char :=
  "qunit-sinon-assertions: ".toList ++ s.display ++ " is not a spy".toList

/-- validateSpy of the test-support module: throw on a falsy argument;
when the argument carries a truthy sinon proxy, validate that proxy
instead and stop; otherwise throw unless the argument is a function with a
getCall function. -/
def validateSpy : SpyArg → Except (List Char) Unit
  | s@(.plain ..) =>
    if !s.truthy then .error (failMsg s)
    else if !(s.isFunction && s.hasGetCall) then .error (failMsg s)
    else .ok ()
  | s@(.proxied _ _ _ _ _ p) =>
    if !s.truthy then .error (failMsg s)
    else if p.truthy && p.isSinonProxy then validateSpy p
    else if !(s.isFunction && s.hasGetCall) then .error (failMsg s)
    else .ok ()

/-- The effective validation target: strip truthy sinon-proxy layers, as
validateSpy's recursion does. -/
def unwrapSinon : SpyArg → SpyArg
  | s@(.plain ..) => s
  | s@(.proxied _ _ _ _ _ p) =>
    if s.truthy && (p.truthy && p.isSinonProxy) then unwrapSinon p else s

/-- The duck-type checks of the factory: a truthy, invocable value exposing
a call-record accessor. -/
def spyChecksOk (s : SpyArg) : Bool :=
  s.truthy && s.isFunction && s.hasGetCall

/-- The factory installed on the assertion namespace: validate the
argument, then hand back a fresh assertion set bound to the spy and the
test context, with nothing reported. -/
def spyFactory (arg : SpyArg) (spy : Spy) (results : List Outcome) :
    Except (List Char) SinonAssertions :=
  match validateSpy arg with
  | .error e => .error e
  | .ok _ => .ok ⟨spy, results⟩

/-- The last outcome an assertion set has pushed. -/
def lastOutcome (a : SinonAssertions) : Option Outcome := a.results.getLast?

/-- C4: for every outcome handed to the report primitive, the message
delivered to the result sink is the user message on a pass when one is
present and the expected text otherwise; on a failure it is the user
message followed by a newline (when present) followed by the default
failure-explanation text.  The boolean result and the expected and actual
texts pass through unchanged, and exactly one outcome is appended. -/
theorem pushResult_message_composition (a : SinonAssertions)
    (message : List Char) (result : Bool) (expected actual error : List Char) :
    ∃ o : Outcome,
      (a.pushResult message result expected actual error).results
          = a.results ++ [o]
      ∧ o.result = result ∧ o.expected = expected ∧ o.actual = actual
      ∧ (result = true → message ≠ [] → o.message = message)
      ∧ (result = true → message = [] → o.message = expected)
      ∧ (result = false → message ≠ [] → o.message = message ++ '\n' :: error)
      ∧ (result = false → message = [] → o.message = error) := by
  refine ⟨_, rfl, rfl, rfl, rfl, ?_, ?_, ?_, ?_⟩ <;>
    rintro rfl h <;>
    simp_all [List.isEmpty_iff]

/-- Closed instance of the message-composition property at concrete
inputs. -/
theorem pushResult_message_composition_witness :
    ∃ o : Outcome,
      (SinonAssertions.pushResult ⟨⟨"f".toList, []⟩, []⟩ "hi".toList false
          "e".toList "a".toList "err".toList).results = [] ++ [o]
      ∧ o.result = false ∧ o.expected = "e".toList ∧ o.actual = "a".toList
      ∧ (false = true → "hi".toList ≠ [] → o.message = "hi".toList)
      ∧ (false = true → "hi".toList = [] → o.message = "e".toList)
      ∧ (false = false → "hi".toList ≠ [] →
          o.message = "hi".toList ++ '\n' :: "err".toList)
      ∧ (false = false → "hi".toList = [] → o.message = "err".toList) :=
  pushResult_message_composition ⟨⟨"f".toList, []⟩, []⟩ "hi".toList false
    "e".toList "a".toList "err".toList

/-- C5: calledTimes reports a pass exactly when the spy's call count equals
the expected count, and calledOnce, calledTwice and notCalled are exactly
calledTimes at 1, 2 and 0. -/
theorem calledTimes_exact_and_delegations :
    (∀ (a : SinonAssertions) (count : Nat) (message : List Char),
      (lastOutcome (a.calledTimes count message)).map Outcome.result
        = some (decide (a.spy.callCount = count)))
    ∧ (∀ (a : SinonAssertions) (message : List Char),
        a.calledOnce message = a.calledTimes 1 message)
    ∧ (∀ (a : SinonAssertions) (message : List Char),
        a.calledTwice message = a.calledTimes 2 message)
    ∧ (∀ (a : SinonAssertions) (message : List Char),
        a.notCalled message = a.calledTimes 0 message) := by
  refine ⟨fun a count message => ?_, fun _ _ => rfl, fun _ _ => rfl,
    fun _ _ => rfl⟩
  simp [SinonAssertions.calledTimes, SinonAssertions.pushResult, lastOutcome]

/-- C2: on a spy with zero recorded calls, the plain negative argument
checks report a pass for every argument list, while the last-call negative
checks report a failure for every argument list. -/
theorem never_called_negative_asymmetry (name : List Char)
    (results : List Outcome) (args : JsList) (message : List Char) :
    ((lastOutcome ((⟨⟨name, []⟩, results⟩ : SinonAssertions).notCalledWith
        args message)).map Outcome.result = some true)
    ∧ ((lastOutcome ((⟨⟨name, []⟩, results⟩ : SinonAssertions).notCalledWithExactly
        args message)).map Outcome.result = some true)
    ∧ ((lastOutcome ((⟨⟨name, []⟩, results⟩ : SinonAssertions).lastNotCalledWith
        args message)).map Outcome.result = some false)
    ∧ ((lastOutcome ((⟨⟨name, []⟩, results⟩ : SinonAssertions).lastNotCalledWithExactly
        args message)).map Outcome.result = some false) := by
  refine ⟨?_, ?_, ?_, ?_⟩ <;>
    simp [SinonAssertions.notCalledWith, SinonAssertions.notCalledWithExactly,
      SinonAssertions.lastNotCalledWith, SinonAssertions.lastNotCalledWithExactly,
      SinonAssertions.pushResult, lastOutcome, Spy.calledWith,
      Spy.calledWithExactly, Spy.getCallLast]

/-- C9: on a spy with zero recorded calls, every last-call check reports a
failing outcome through the normal channel — exactly one outcome is
appended and its result is false; in this embedding every check is a total
function, so no error is raised. -/
theorem last_checks_fail_when_never_called (name : List Char)
    (results : List Outcome) (args : JsList) (value : JsVal)
    (message : List Char) :
    (∃ o, ((⟨⟨name, []⟩, results⟩ : SinonAssertions).lastCalledWith args
        message).results = results ++ [o] ∧ o.result = false)
    ∧ (∃ o, ((⟨⟨name, []⟩, results⟩ : SinonAssertions).lastCalledWithExactly args
        message).results = results ++ [o] ∧ o.result = false)
    ∧ (∃ o, ((⟨⟨name, []⟩, results⟩ : SinonAssertions).lastReturnedWith value
        message).results = results ++ [o] ∧ o.result = false)
    ∧ (∃ o, ((⟨⟨name, []⟩, results⟩ : SinonAssertions).lastDidNotReturnWith value
        message).results = results ++ [o] ∧ o.result = false) := by
  refine ⟨⟨_, rfl, ?_⟩, ⟨_, rfl, ?_⟩, ⟨_, rfl, ?_⟩, ⟨_, rfl, ?_⟩⟩ <;> rfl

/-- C10: every public check keeps the spy binding unchanged (the chained
value is the same bound assertion set, and the spy is never mutated) and
appends exactly one outcome to the sink, so a chain of n checks appends
exactly n outcomes in call order. -/
theorem checks_chain_and_report_once (a : SinonAssertions) (count : Nat)
    (args : JsList) (value : JsVal) (message : List Char) :
    ((a.called message).spy = a.spy
      ∧ ∃ o, (a.called message).results = a.results ++ [o])
    ∧ ((a.calledTimes count message).spy = a.spy
      ∧ ∃ o, (a.calledTimes count message).results = a.results ++ [o])
    ∧ ((a.calledOnce message).spy = a.spy
      ∧ ∃ o, (a.calledOnce message).results = a.results ++ [o])
    ∧ ((a.calledTwice message).spy = a.spy
      ∧ ∃ o, (a.calledTwice message).results = a.results ++ [o])
    ∧ ((a.notCalled message).spy = a.spy
      ∧ ∃ o, (a.notCalled message).results = a.results ++ [o])
    ∧ ((a.calledWith args message).spy = a.spy
      ∧ ∃ o, (a.calledWith args message).results = a.results ++ [o])
    ∧ ((a.calledWithExactly args message).spy = a.spy
      ∧ ∃ o, (a.calledWithExactly args message).results = a.results ++ [o])
    ∧ ((a.notCalledWith args message).spy = a.spy
      ∧ ∃ o, (a.notCalledWith args message).results = a.results ++ [o])
    ∧ ((a.notCalledWithExactly args message).spy = a.spy
      ∧ ∃ o, (a.notCalledWithExactly args message).results = a.results ++ [o])
    ∧ ((a.returnedWith value message).spy = a.spy
      ∧ ∃ o, (a.returnedWith value message).results = a.results ++ [o])
    ∧ ((a.didNotReturnWith value message).spy = a.spy
      ∧ ∃ o, (a.didNotReturnWith value message).results = a.results ++ [o])
    ∧ ((a.threw message).spy = a.spy
      ∧ ∃ o, (a.threw message).results = a.results ++ [o])
    ∧ ((a.threwWith value message).spy = a.spy
      ∧ ∃ o, (a.threwWith value message).results = a.results ++ [o])
    ∧ ((a.lastCalledWith args message).spy = a.spy
      ∧ ∃ o, (a.lastCalledWith args message).results = a.results ++ [o])
    ∧ ((a.lastCalledWithExactly args message).spy = a.spy
      ∧ ∃ o, (a.lastCalledWithExactly args message).results = a.results ++ [o])
    ∧ ((a.lastReturnedWith value message).spy = a.spy
      ∧ ∃ o, (a.lastReturnedWith value message).results = a.results ++ [o])
    ∧ ((a.lastNotCalledWith args message).spy = a.spy
      ∧ ∃ o, (a.lastNotCalledWith args message).results = a.results ++ [o])
    ∧ ((a.lastNotCalledWithExactly args message).spy = a.spy
      ∧ ∃ o, (a.lastNotCalledWithExactly args message).results = a.results ++ [o])
    ∧ ((a.lastDidNotReturnWith value message).spy = a.spy
      ∧ ∃ o, (a.lastDidNotReturnWith value message).results = a.results ++ [o]) :=
  ⟨⟨rfl, _, rfl⟩, ⟨rfl, _, rfl⟩, ⟨rfl, _, rfl⟩, ⟨rfl, _, rfl⟩, ⟨rfl, _, rfl⟩,
    ⟨rfl, _, rfl⟩, ⟨rfl, _, rfl⟩, ⟨rfl, _, rfl⟩, ⟨rfl, _, rfl⟩, ⟨rfl, _, rfl⟩,
    ⟨rfl, _, rfl⟩, ⟨rfl, _, rfl⟩, ⟨rfl, _, rfl⟩, ⟨rfl, _, rfl⟩, ⟨rfl, _, rfl⟩,
    ⟨rfl, _, rfl⟩, ⟨rfl, _, rfl⟩, ⟨rfl, _, rfl⟩, ⟨rfl, _, rfl⟩⟩

/-- C7: the factory raises a validation error — rather than reporting a
test outcome — exactly when its argument, after stripping truthy
sinon-proxy wrappers as the validator's recursion does, is falsy, not a
function, or without a getCall function. -/
theorem spy_factory_error_iff (s : SpyArg) (spy : Spy)
    (results : List Outcome) :
    ((∃ e, spyFactory s spy results = .error e)
      ↔ spyChecksOk (unwrapSinon s) = false)
    ∧ ((∃ e, validateSpy s = .error e)
      ↔ spyChecksOk (unwrapSinon s) = false) := by
  have key : ∀ t : SpyArg,
      (∃ e, validateSpy t = .error e) ↔ spyChecksOk (unwrapSinon t) = false := by
    intro t
    induction t with
    | plain tr f g p d =>
      simp only [validateSpy, unwrapSinon, spyChecksOk, SpyArg.truthy,
        SpyArg.isFunction, SpyArg.hasGetCall]
      cases tr <;> cases f <;> cases g <;> simp
    | proxied tr f g p d inner ih =>
      cases inner with
      | plain it ifn ig ip idd =>
        simp only [validateSpy, unwrapSinon, spyChecksOk, SpyArg.truthy,
          SpyArg.isFunction, SpyArg.hasGetCall, SpyArg.isSinonProxy] at ih ⊢
        cases tr <;> cases f <;> cases g <;> cases it <;> cases ip <;>
          simp_all
      | proxied it ifn ig ip idd ipr =>
        simp only [validateSpy, unwrapSinon, spyChecksOk, SpyArg.truthy,
          SpyArg.isFunction, SpyArg.hasGetCall, SpyArg.isSinonProxy] at ih ⊢
        cases tr <;> cases f <;> cases g <;> cases it <;> cases ip <;>
          simp_all
  refine ⟨?_, key s⟩
  rw [← key s]
  constructor
  · rintro ⟨e, he⟩
    refine ⟨e, ?_⟩
    unfold spyFactory at he
    cases hv : validateSpy s with
    | error e2 => rw [hv] at he; exact Except.error.inj he ▸ rfl
    | ok u => rw [hv] at he; exact absurd he (by simp)
  · rintro ⟨e, he⟩
    exact ⟨e, by unfold spyFactory; rw [he]⟩

/-- The final quote-to-apostrophe pass leaves no double quote in its
output, whatever the fuel and the input. -/
theorem quote_not_mem_replaceFuel (fuel : Nat) (s : List Char) :
    '\x22' ∉ replaceFuel ['\x22'] ['\x27'] fuel s := by
  induction fuel generalizing s with
  | zero => simp [replaceFuel]
  | succ n ih =>
    cases s with
    | nil => simp [replaceFuel]
    | cons c rest =>
      by_cases hc : c = '\x22'
      · subst hc
        have hcond : (!(['\x22'] : List Char).isEmpty
            && List.isPrefixOf ['\x22'] ('\x22' :: rest)) = true := by
          simp [List.isPrefixOf]
        simp only [replaceFuel]
        rw [if_pos hcond]
        intro h
        rcases List.mem_append.mp h with h | h
        · exact absurd (List.mem_singleton.mp h) (by decide)
        · exact ih _ (by simpa using h)
      · have hcond : ¬((!(['\x22'] : List Char).isEmpty
            && List.isPrefixOf ['\x22'] (c :: rest)) = true) := by
          simp [List.isPrefixOf]
          exact fun h => absurd h.symm hc
        simp only [replaceFuel]
        rw [if_neg hcond]
        intro h
        rcases List.mem_cons.mp h with h | h
        · exact hc h.symm
        · exact ih _ h

/-- Evaluation shape of format on a text value: the encoder always
succeeds, and the result is the post-processed encoding wrapped in
backticks. -/
theorem format_vStr_eq (s : List Char) (isIndented : Bool) :
    format (JsVal.vStr s) isIndented =
      if '\n' ∈ replaceList ['\x22'] ['\x27'] (replaceList ['\\', '\x22'] ['\x27']
          (replaceList "\x22<undefined>\x22".toList "undefined".toList
            (quoteJson s)))
      then FormatResult.token ('\x60' :: '\n' ::
            replaceList ['\x22'] ['\x27'] (replaceList ['\\', '\x22'] ['\x27']
              (replaceList "\x22<undefined>\x22".toList "undefined".toList
                (quoteJson s)))
            ++ ['\n', '\x60'])
      else FormatResult.token ('\x60' ::
            replaceList ['\x22'] ['\x27'] (replaceList ['\\', '\x22'] ['\x27']
              (replaceList "\x22<undefined>\x22".toList "undefined".toList
                (quoteJson s)))
            ++ ['\x60']) := rfl

/-- C8: formatting a text value containing a double quote yields a token in
which no double quote remains — the final replacement pass converts every
remaining double quote (the escaped ones having been collapsed first) to a
single quote. -/
theorem format_string_no_double_quote (s : List Char) (isIndented : Bool)
    (h : '\x22' ∈ s) :
    ∃ t, format (JsVal.vStr s) isIndented = FormatResult.token t
      ∧ '\x22' ∉ t := by
  rw [format_vStr_eq]
  set r3 := replaceList ['\x22'] ['\x27'] (replaceList ['\\', '\x22'] ['\x27']
    (replaceList "\x22<undefined>\x22".toList "undefined".toList
      (quoteJson s))) with hr3
  have hq : '\x22' ∉ r3 := by
    rw [hr3]
    exact quote_not_mem_replaceFuel _ _
  by_cases hn : '\n' ∈ r3
  · rw [if_pos hn]
    refine ⟨_, rfl, ?_⟩
    intro hmem
    rcases List.mem_cons.mp hmem with h1 | hmem
    · exact absurd h1 (by decide)
    rcases List.mem_cons.mp hmem with h1 | hmem
    · exact absurd h1 (by decide)
    rcases List.mem_append.mp hmem with h1 | h1
    · exact hq h1
    · rcases List.mem_cons.mp h1 with h2 | h2
      · exact absurd h2 (by decide)
      · exact absurd (List.mem_singleton.mp h2) (by decide)
  · rw [if_neg hn]
    refine ⟨_, rfl, ?_⟩
    intro hmem
    rcases List.mem_cons.mp hmem with h1 | hmem
    · exact absurd h1 (by decide)
    rcases List.mem_append.mp hmem with h1 | h1
    · exact hq h1
    · exact absurd (List.mem_singleton.mp h1) (by decide)

/-- Closed instance of the quote-normalization property at a concrete text
containing a double quote. -/
theorem format_string_no_double_quote_witness :
    '\x22' ∈ ("a\x22b".toList)
    ∧ ∃ t, format (JsVal.vStr "a\x22b".toList) false = FormatResult.token t
        ∧ '\x22' ∉ t :=
  ⟨by decide, format_string_no_double_quote "a\x22b".toList false (by decide)⟩

/-- C6: whenever the structural encoder fails on a value — as it does on a
self-referential structure — format returns the original value unchanged;
in this embedding format is a total function, so no error ever reaches its
caller. -/
theorem format_soft_failure (value : JsVal) (isIndented : Bool)
    (h : stringify value (gapFor isIndented) = .error ()) :
    format value isIndented = .raw value := by
  unfold format
  rw [h]

/-- Closed instance of the soft-failure guarantee on the self-referential
object. -/
theorem format_soft_failure_witness :
    stringify JsVal.vCyclic (gapFor false) = .error ()
    ∧ format JsVal.vCyclic false = FormatResult.raw JsVal.vCyclic :=
  ⟨rfl, format_soft_failure JsVal.vCyclic false rfl⟩

/-- C1 (amended): format of undefined yields the bare word undefined,
unquoted and not block-delimited, but wrapped in the same single-line
backtick delimiter pair as every other single-line value. -/
theorem format_undefined_backtick_wrapped (isIndented : Bool) :
    format JsVal.vUndefined isIndented
      = FormatResult.token ('\x60' :: "undefined".toList ++ ['\x60']) := by
  cases isIndented <;> rfl

/-- C1 counterexample: format of undefined is not the bare text undefined —
the returned token carries the backtick delimiter pair. -/
theorem format_undefined_not_bare :
    format JsVal.vUndefined false ≠ FormatResult.token "undefined".toList := by
  intro h
  rw [show format JsVal.vUndefined false
      = FormatResult.token ('\x60' :: "undefined".toList ++ ['\x60']) from rfl] at h
  exact absurd (FormatResult.token.inj h) (by decide)

/-- C3 counterexample: on a spy with zero recorded calls, returnedWith — a
check that compares against every recorded call — reports an actual text
that does not contain the not-called placeholder at all. -/
theorem returnedWith_zero_calls_actual_cex :
    (lastOutcome ((⟨⟨['f'], []⟩, []⟩ : SinonAssertions).returnedWith
        JsVal.vNull [])).map Outcome.actual = some ("f returned ".toList)
    ∧ ¬ ("not called at all".toList <:+: "f returned ".toList) :=
  ⟨rfl, by decide⟩

/-- C3 (amended): of the checks that compare against every recorded call,
only calledWith and calledWithExactly report an actual text listing every
recorded call's arguments, formatted, one per line, or the not-called
placeholder when the call count is zero; returnedWith lists every recorded
return value one per line but has no zero-call placeholder; the negative
checks notCalledWith, notCalledWithExactly and didNotReturnWith echo the
expected arguments or value instead of listing the recorded calls; and
threw and threwWith report the fixed did-not-throw texts (with the
formatted expected exception for threwWith), also without listing the
recorded calls and without a zero-call placeholder. -/
theorem multi_call_actual_texts (spy : Spy) (results : List Outcome)
    (args : JsList) (value : JsVal) (message : List Char) :
    ((lastOutcome ((⟨spy, results⟩ : SinonAssertions).calledWith args
        message)).map Outcome.actual
      = some (spy.name ++ " was ".toList ++
          (if spy.callCount ≠ 0 then
            "called with: ".toList ++ joinFormatted spy.argValues
           else "not called at all".toList)))
    ∧ ((lastOutcome ((⟨spy, results⟩ : SinonAssertions).calledWithExactly args
        message)).map Outcome.actual
      = some (spy.name ++ " was ".toList ++
          (if spy.callCount ≠ 0 then
            "called with: ".toList ++ joinFormatted spy.argValues
           else "not called at all".toList)))
    ∧ ((lastOutcome ((⟨spy, results⟩ : SinonAssertions).returnedWith value
        message)).map Outcome.actual
      = some (spy.name ++ " returned ".toList
          ++ joinFormatted spy.returnValues))
    ∧ ((lastOutcome ((⟨spy, results⟩ : SinonAssertions).notCalledWith args
        message)).map Outcome.actual
      = some (spy.name ++ " was called with: ".toList
          ++ formatText (.vArr args)))
    ∧ ((lastOutcome ((⟨spy, results⟩ : SinonAssertions).notCalledWithExactly args
        message)).map Outcome.actual
      = some (spy.name ++ " was called with: ".toList
          ++ formatText (.vArr args)))
    ∧ ((lastOutcome ((⟨spy, results⟩ : SinonAssertions).didNotReturnWith value
        message)).map Outcome.actual
      = some (spy.name ++ " returned ".toList ++ formatText value))
    ∧ ((lastOutcome ((⟨spy, results⟩ : SinonAssertions).threw
        message)).map Outcome.actual
      = some (spy.name ++ " did not throw".toList))
    ∧ ((lastOutcome ((⟨spy, results⟩ : SinonAssertions).threwWith value
        message)).map Outcome.actual
      = some (spy.name ++ " did not throw with ".toList ++ formatText value)) := by
  refine ⟨?_, ?_, ?_, ?_, ?_, ?_, ?_, ?_⟩ <;>
    simp [SinonAssertions.calledWith, SinonAssertions.calledWithExactly,
      SinonAssertions.returnedWith, SinonAssertions.notCalledWith,
      SinonAssertions.notCalledWithExactly, SinonAssertions.didNotReturnWith,
      SinonAssertions.threw, SinonAssertions.threwWith,
      SinonAssertions.pushResult, lastOutcome]

end QSinon
